import Mathlib

/-!
Shallow embedding of `src/core/perf/operators/from.js` (RxJS perf operators):
the `Observable.from` constructor (iterable normalization, `toLength`, the
recursive scheduled emission loop) and the `Observable.fromEventPattern`
constructor (forwarding handler, `EventPatternDisposable`, and the
`publish().refCount()` sharing wrapper).

Modelling conventions:
* JavaScript numbers are modelled by `JSNum`: `NaN`, the two infinities, and
  finite values as rationals.  Every numeric operation `toLength` performs on
  a finite double (`Math.floor`, `Math.abs`, sign, comparison) is exact on
  doubles, so the rational model is faithful.
* A JavaScript error value is `JsError` (an `Error` or a `TypeError` with its
  message); a `throw` is an `Except.error`.
* Signals pushed into an observer are collected into a `List (Signal α)`
  (a collecting observer), in delivery order.
* An iterator object obtained from the `$iterator$` capability is modelled by
  the sequence of results of its successive `next()` calls
  (`Nat → Pull α`); the library's own `StringIterator` and `ArrayIterator`
  are modelled statefully, exactly as in the source.
* The current-thread scheduler's trampoline (`scheduleRecursive`) drains the
  recursive loop synchronously; the drain is modelled by a fuel parameter
  (needed because an array-like whose length is `Infinity` never terminates).
-/

/-- A JavaScript error value: `new Error(msg)` or `new TypeError(msg)`. -/
inductive JsError where
  | error (msg : String)
  | typeError (msg : String)
deriving DecidableEq

/-- A signal delivered to an observer: `onNext`, `onError` or `onCompleted`. -/
inductive Signal (α : Type) where
  | onNext (v : α)
  | onError (e : JsError)
  | onCompleted
deriving DecidableEq

/-- The outcome of one `it.next()` call, as seen through `tryCatch`:
the call threw, returned `{done: true}`, or returned `{done: false, value}`. -/
inductive Pull (α : Type) where
  | throws (e : JsError)
  | done
  | value (v : α)
deriving DecidableEq

/-- A JavaScript number: `NaN`, `Infinity`, `-Infinity`, or a finite value. -/
inductive JSNum where
  | nan
  | posInf
  | negInf
  | fin (q : ℚ)
deriving DecidableEq

/-- The JavaScript `<` comparison on numbers (false whenever `NaN` is involved). -/
def JSNum.lt : JSNum → JSNum → Bool
  | .nan, _ => false
  | _, .nan => false
  | .negInf, .negInf => false
  | .negInf, _ => true
  | _, .negInf => false
  | .posInf, _ => false
  | .fin _, .posInf => true
  | .fin a, .fin b => decide (a < b)

/-- `var maxSafeInteger = Math.pow(2, 53) - 1;` -/
def maxSafeInteger : ℚ := 9007199254740991

/--
`toLength` from the source, on the already-coerced number `+o.length`:

    if (isNaN(len)) { return 0; }
    if (len === 0 || !numberIsFinite(len)) { return len; }
    len = sign(len) * Math.floor(Math.abs(len));
    if (len <= 0) { return 0; }
    if (len > maxSafeInteger) { return maxSafeInteger; }
    return len;

Note the second line returns a non-finite `len` unchanged.
-/
def toLength (len : JSNum) : JSNum :=
  match len with
  | .nan => .fin 0
  | .posInf => .posInf
  | .negInf => .negInf
  | .fin q =>
    if q = 0 then .fin 0
    else
      let t : ℤ := (if q < 0 then -1 else 1) * ⌊|q|⌋
      if t ≤ 0 then .fin 0
      else if maxSafeInteger < (t : ℚ) then .fin maxSafeInteger
      else .fin (t : ℚ)

/--
The iterator handed to the emission loop by `getIterable`:
* `strIt s l i` is a `StringIterator` (`_s`, `_l = s.length`, `_i`), the
  string stored as its list of characters (as values);
* `arrIt a l i` is an `ArrayIterator` (`_a`, `_l = toLength(a)`, `_i`);
* `extIt p i` is an iterator obtained from the `$iterator$` capability,
  `p k` being the outcome of its `k`-th `next()` call (`i` calls made so far).
-/
inductive AnyIterator (α : Type) where
  | strIt (s : List α) (l : Nat) (i : Nat)
  | arrIt (a : Nat → α) (l : JSNum) (i : Nat)
  | extIt (p : Nat → Pull α) (i : Nat)

/--
One `next()` call, returning the pull outcome and the advanced iterator.
`StringIterator.prototype.next`: `this._i < this._l ? {done:false, value:this._s.charAt(this._i++)} : doneEnumerator`.
`ArrayIterator.prototype.next`: `this._i < this._l ? {done:false, value:this._a[this._i++]} : doneEnumerator`
(the index/length comparison is the JavaScript `<` since `_l` may be non-finite).
-/
def AnyIterator.next [Inhabited α] : AnyIterator α → Pull α × AnyIterator α
  | .strIt s l i =>
      if i < l then (.value (s.getD i default), .strIt s l (i + 1))
      else (.done, .strIt s l i)
  | .arrIt a l i =>
      if (JSNum.fin (i : ℚ)).lt l then (.value (a i), .arrIt a l (i + 1))
      else (.done, .arrIt a l i)
  | .extIt p i => (p i, .extIt p (i + 1))

/--
A JavaScript value considered as a `from` source, after `Object(...)` wrapping:
* `iteratorCap`: `o[$iterator$]`, `some` when it is truthy, giving the pull
  sequence of the iterator `o[$iterator$]()` returns;
* `stringVal`: `some` (the characters, as values) when `typeof o === 'string'`;
* `length`: the coerced number `+o.length` when `o.length !== undefined`;
* `elem i`: the indexed access `o[i]`.
-/
structure JSSource (α : Type) where
  iteratorCap : Option (Nat → Pull α)
  stringVal : Option (List α)
  length : Option JSNum
  elem : Nat → α

/--
`getIterable` from the source:

    var i = o[$iterator$], it;
    if (!i && typeof o === 'string') { it = new StringIterable(o); return it[$iterator$](); }
    if (!i && o.length !== undefined) { it = new ArrayIterable(o); return it[$iterator$](); }
    if (!i) { throw new TypeError('Object is not iterable'); }
    return o[$iterator$]();

`new ArrayIterator(a)` sets `_l = toLength(a)` where `toLength` reads `+a.length`
(`+undefined` is `NaN`); `new StringIterator(s)` sets `_l = s.length`.
-/
def getIterable (o : JSSource α) : Except JsError (AnyIterator α) :=
  match o.iteratorCap with
  | none =>
    match o.stringVal with
    | some s => .ok (AnyIterator.strIt s s.length 0)
    | none =>
      match o.length with
      | some _ => .ok (AnyIterator.arrIt o.elem (toLength (o.length.getD JSNum.nan)) 0)
      | none => .error (JsError.typeError "Object is not iterable")
  | some p => .ok (AnyIterator.extIt p 0)

/--
`createScheduleMethod`'s `loopRecursive`, drained by the current-thread
scheduler's trampoline (the fuel bounds the number of trampoline steps):

    var next = tryCatch(it.next).call(it);
    if (next === errorObj) { return o.onError(next.e); }
    if (next.done) { return o.onCompleted(); }
    o.onNext(next.value);
    recurse(i + 1);
-/
def loopRecursive [Inhabited α] : Nat → AnyIterator α → List (Signal α)
  | 0, _ => []
  | fuel + 1, it =>
    match it.next with
    | (.throws e, _) => [Signal.onError e]
    | (.done, _) => [Signal.onCompleted]
    | (.value v, it') => Signal.onNext v :: loopRecursive fuel it'

/-- A reference to a scheduler argument that passed the `isScheduler` test. -/
inductive SchedulerRef where
  | currentThread
  | custom (id : Nat)
deriving DecidableEq

/-- `FromObservable`: stores `_iterable` and `_scheduler` at construction. -/
structure FromObservable (α : Type) where
  _iterable : JSSource α
  _scheduler : SchedulerRef

/--
`Observable.from = function (iterable, thisArg, scheduler)`:

    if (iterable == null) { throw new Error('iterable cannot be null.') }
    isScheduler(scheduler) || (scheduler = currentThreadScheduler);
    return new FromObservable(iterable, scheduler);

`none` for `iterable` models `null`/`undefined`; `none` for `scheduler` models
an argument that fails `isScheduler` (including `undefined`).  `thisArg` is
accepted, as in the source, and never used.
-/
def observableFrom {α τ : Type} (iterable : Option (JSSource α)) (thisArg : τ)
    (scheduler : Option SchedulerRef) : Except JsError (FromObservable α) :=
  match iterable with
  | none => .error (JsError.error "iterable cannot be null.")
  | some it => .ok { _iterable := it, _scheduler := scheduler.getD SchedulerRef.currentThread }

/--
`FromObservable.prototype.subscribeCore`, drained synchronously by the
current-thread scheduler: `var list = Object(this._iterable), it = getIterable(list);
return this._scheduler.scheduleRecursive(0, createScheduleMethod(o, it));`.
The result is the list of signals the collecting observer receives; a
`TypeError` thrown by `getIterable` surfaces as `Except.error`.
-/
def FromObservable.subscribeTrace [Inhabited α] (obs : FromObservable α) (fuel : Nat) :
    Except JsError (List (Signal α)) :=
  (getIterable obs._iterable).map (loopRecursive fuel)

/-- End-to-end: call `Observable.from` and, on success, subscribe a collecting
observer, draining the current-thread trampoline with the given fuel. -/
def fromTrace {α τ : Type} [Inhabited α] (fuel : Nat) (iterable : Option (JSSource α))
    (thisArg : τ) (scheduler : Option SchedulerRef) : Except JsError (List (Signal α)) :=
  match observableFrom iterable thisArg scheduler with
  | .error e => .error e
  | .ok obs => obs.subscribeTrace fuel

/-- An array-like source: no iterator capability, not a string, with a
`length` property and indexed elements. -/
def arraySource {α : Type} (a : Nat → α) (len : JSNum) : JSSource α :=
  { iteratorCap := none, stringVal := none, length := some len, elem := a }

/-- A string source (its characters given as values).  Strings also expose
`length`, but `getIterable`'s string test fires first. -/
def stringSource {α : Type} [Inhabited α] (s : List α) : JSSource α :=
  { iteratorCap := none, stringVal := some s, length := some (JSNum.fin s.length),
    elem := fun i => s.getD i default }

/-- A source exposing the `$iterator$` capability, given by the pull sequence
of the iterator it returns. -/
def iteratorSource {α : Type} [Inhabited α] (p : Nat → Pull α) : JSSource α :=
  { iteratorCap := some p, stringVal := none, length := none, elem := fun _ => default }

/-- A source with no iterator capability, no string, no `length`. -/
def plainSource : JSSource Nat :=
  { iteratorCap := none, stringVal := none, length := none, elem := fun _ => 0 }

/-- A concrete iterator whose first two pulls yield `0, 1` and whose third
`next()` call throws. -/
def pullsEx : Nat → Pull Nat :=
  fun j => if j < 2 then Pull.value j else Pull.throws (JsError.error "boom")

/--
`createHandler(o)` from `EventPatternObservable`:

    return function handler () { var results = arguments[0]; o.onNext(results); };

The handler is modelled observer-agnostically: applied to the argument list
the event source passes, it yields the signal delivered to the observer
(`arguments[0]` is `undefined` — `default` — when no argument is passed).
-/
def createHandler (β : Type) [Inhabited β] : List β → Signal β :=
  fun args => Signal.onNext (args.getD 0 default)

/-- `EventPatternObservable`: stores `_add` and whether `_del` is a function
(`isFunction(this._del)` is all `dispose` asks of it). -/
structure EventPatternObservable (β R : Type) where
  _add : (List β → Signal β) → R
  _delCallable : Bool

/-- `EventPatternDisposable(del, fn, ret)`: `this._del = del; this._fn = fn;
this._ret = ret; this.isDisposed = false;`. -/
structure EventPatternDisposable (β R : Type) where
  _delCallable : Bool
  _fn : List β → Signal β
  _ret : R
  isDisposed : Bool

/--
`EventPatternDisposable.prototype.dispose`:

    if (!this.isDisposed) {
      isFunction(this._del) && this._del(this._fn, this._ret);
      this.isDisposed = true;
    }

Returns the updated disposable and the list of calls made to `_del`
(each call recorded as the `(fn, ret)` argument pair).
-/
def EventPatternDisposable.dispose {β R : Type} (d : EventPatternDisposable β R) :
    EventPatternDisposable β R × List ((List β → Signal β) × R) :=
  if d.isDisposed then (d, [])
  else ({ d with isDisposed := true }, if d._delCallable then [(d._fn, d._ret)] else [])

/-- The observable effects of one `EventPatternObservable.prototype.subscribeCore`
call: the arguments passed to `_add` (in order) and the returned disposable. -/
structure EPSubscription (β R : Type) where
  addCalls : List (List β → Signal β)
  disposable : EventPatternDisposable β R

/--
`EventPatternObservable.prototype.subscribeCore`:

    var fn = createHandler(o);
    var returnValue = this._add(fn);
    return new EventPatternDisposable(this._del, fn, returnValue);
-/
def EventPatternObservable.subscribeCore {β R : Type} [Inhabited β]
    (src : EventPatternObservable β R) : EPSubscription β R :=
  let fn := createHandler β
  let ret := src._add fn
  { addCalls := [fn],
    disposable := { _delCallable := src._delCallable, _fn := fn, _ret := ret, isDisposed := false } }

/-- A subscription-lifecycle event seen by the shared (ref-counted) observable:
a new observer subscribes, or an existing one unsubscribes. -/
inductive RCEvent where
  | sub
  | unsub
deriving DecidableEq

/-- State of the ref-counted wrapper: live subscriber count, the underlying
`EventPatternDisposable` while connected, and how many calls have been made
to `addHandler` and to `removeHandler` so far. -/
structure RefCountState (β R : Type) where
  count : Nat
  connection : Option (EventPatternDisposable β R)
  addCalls : Nat
  delCalls : Nat

/--
Modelled from the spec: `fromEventPattern` wraps the `EventPatternObservable`
as `new EventPatternObservable(addHandler, removeHandler).publish().refCount()`;
the `publish`/`refCount` operators are not among the sources under
verification.  Per the spec's sharing policy, the first subscriber connects
the underlying observable (one `subscribeCore` call, hence one `_add` call),
later subscribers only increment the count, and the underlying subscription
is disposed (one `_del` call) exactly when the count returns to zero; a
subscriber arriving after that reconnects.
-/
def refCountStep {β R : Type} [Inhabited β] (src : EventPatternObservable β R)
    (s : RefCountState β R) : RCEvent → RefCountState β R
  | RCEvent.sub =>
      if s.count = 0 then
        let sub := src.subscribeCore
        { s with count := s.count + 1, connection := some sub.disposable,
                 addCalls := s.addCalls + sub.addCalls.length }
      else { s with count := s.count + 1 }
  | RCEvent.unsub =>
      if s.count = 0 then s
      else if s.count = 1 then
        match s.connection with
        | some d =>
            let r := d.dispose
            { s with count := 0, connection := none, delCalls := s.delCalls + r.2.length }
        | none => { s with count := 0 }
      else { s with count := s.count - 1 }

/-- Run the ref-counted event-pattern observable through a list of
subscribe/unsubscribe events, starting disconnected with zero subscribers. -/
def runRefCount {β R : Type} [Inhabited β] (src : EventPatternObservable β R)
    (evs : List RCEvent) : RefCountState β R :=
  evs.foldl (refCountStep src) { count := 0, connection := none, addCalls := 0, delCalls := 0 }

/-- Closed form of `toLength` on finite lengths: anything below one produces
zero; otherwise the floor, clamped from above to `2^53 - 1`. -/
theorem toLength_fin_eq (q : ℚ) :
    toLength (JSNum.fin q) =
      (if q < 1 then JSNum.fin 0 else JSNum.fin ((min ⌊q⌋ (2 ^ 53 - 1) : ℤ) : ℚ)) := by
  have hmax : maxSafeInteger = ((2 ^ 53 - 1 : ℤ) : ℚ) := by norm_num [maxSafeInteger]
  unfold toLength
  by_cases h0 : q = 0
  · subst h0; norm_num
  by_cases hneg : q < 0
  · have habs : |q| = -q := abs_of_neg hneg
    have hfl : (0 : ℤ) ≤ ⌊|q|⌋ := by
      rw [habs]; exact Int.floor_nonneg.mpr (by linarith)
    have ht : ((if q < 0 then -1 else 1) * ⌊|q|⌋ : ℤ) ≤ 0 := by
      rw [if_pos hneg]; linarith
    have hq1 : q < 1 := by linarith
    simp only [if_neg h0, if_pos ht, if_pos hq1]
  have hqpos : 0 < q := lt_of_le_of_ne (not_lt.mp hneg) (Ne.symm h0)
  have habs : |q| = q := abs_of_pos hqpos
  by_cases hq1 : q < 1
  · have hfl : ⌊q⌋ = 0 := Int.floor_eq_zero_iff.mpr ⟨le_of_lt hqpos, hq1⟩
    have ht : ((if q < 0 then -1 else 1) * ⌊|q|⌋ : ℤ) ≤ 0 := by
      rw [if_neg hneg, habs, hfl]; simp
    simp only [if_neg h0, if_pos ht, if_pos hq1]
  · have hfl1 : (1 : ℤ) ≤ ⌊q⌋ := Int.le_floor.mpr (by push_cast; linarith)
    have ht : ¬ ((if q < 0 then -1 else 1) * ⌊|q|⌋ : ℤ) ≤ 0 := by
      rw [if_neg hneg, habs]; omega
    simp only [if_neg h0, if_neg hneg, habs, one_mul] at ht ⊢
    rw [if_neg ht, if_neg hq1]
    by_cases hbig : maxSafeInteger < ((⌊q⌋ : ℤ) : ℚ)
    · have hbig' : (2 ^ 53 - 1 : ℤ) < ⌊q⌋ := by
        rw [hmax] at hbig; exact_mod_cast hbig
      rw [if_pos hbig, hmax, min_eq_right (le_of_lt hbig')]
    · have hbig' : ⌊q⌋ ≤ (2 ^ 53 - 1 : ℤ) := by
        rw [hmax] at hbig
        exact_mod_cast not_lt.mp hbig
      rw [if_neg hbig, min_eq_left hbig']

/-- `toLength` is the identity on natural lengths up to `maxSafeInteger`. -/
theorem toLength_natCast (n : Nat) (hn : (n : ℚ) ≤ maxSafeInteger) :
    toLength (JSNum.fin (n : ℚ)) = JSNum.fin (n : ℚ) := by
  rw [toLength_fin_eq]
  by_cases h1 : (n : ℚ) < 1
  · have : n = 0 := by exact_mod_cast Nat.lt_one_iff.mp (by exact_mod_cast h1)
    subst this; simp
  · have hn1 : 1 ≤ n := by
      by_contra h
      exact h1 (by exact_mod_cast Nat.lt_one_iff.mpr (by omega) : (n : ℚ) < 1)
    have hfl : ⌊(n : ℚ)⌋ = (n : ℤ) := Int.floor_natCast n
    have hle : (n : ℤ) ≤ (2 ^ 53 - 1 : ℤ) := by
      have : (n : ℚ) ≤ ((2 ^ 53 - 1 : ℤ) : ℚ) := by
        rw [show ((2 ^ 53 - 1 : ℤ) : ℚ) = maxSafeInteger by norm_num [maxSafeInteger]]
        exact hn
      exact_mod_cast this
    rw [if_neg h1, hfl, min_eq_left hle]
    norm_num

/-- Emission loop over an external iterator whose first `m` pulls (starting at
call index `i`) succeed and whose next pull throws. -/
theorem loopRecursive_extIt {α : Type} [Inhabited α] (p : Nat → Pull α) (v : Nat → α)
    (e : JsError) (m : Nat) :
    ∀ (i fuel : Nat), (∀ j, j < m → p (i + j) = Pull.value (v (i + j))) →
      p (i + m) = Pull.throws e → m + 1 ≤ fuel →
      loopRecursive fuel (AnyIterator.extIt p i) =
        (List.ofFn fun j : Fin m => Signal.onNext (v (i + j))) ++ [Signal.onError e] := by
  induction m with
  | zero =>
    intro i fuel hv he hf
    obtain ⟨f, rfl⟩ : ∃ f, fuel = f + 1 := ⟨fuel - 1, by omega⟩
    have he' : p i = Pull.throws e := by simpa using he
    simp [loopRecursive, AnyIterator.next, he']
  | succ m ih =>
    intro i fuel hv he hf
    obtain ⟨f, rfl⟩ : ∃ f, fuel = f + 1 := ⟨fuel - 1, by omega⟩
    have h0 : p i = Pull.value (v i) := by simpa using hv 0 (Nat.succ_pos m)
    simp only [loopRecursive, AnyIterator.next, h0]
    rw [ih (i + 1) f
      (fun j hj => by
        have h := hv (j + 1) (by omega)
        rwa [show i + (j + 1) = i + 1 + j by omega] at h)
      (by rwa [show i + (m + 1) = i + 1 + m by omega] at he)
      (by omega)]
    rw [List.ofFn_succ]
    simp only [Fin.val_zero, Nat.add_zero, Fin.val_succ, List.cons_append]
    have harg : (fun j : Fin m => Signal.onNext (α := α) (v (i + 1 + j))) =
        (fun j : Fin m => Signal.onNext (v (i + (j + 1)))) := by
      funext j
      have hj : i + 1 + (j : Nat) = i + ((j : Nat) + 1) := by omega
      rw [hj]
    rw [harg]

/-- Emission loop over an `ArrayIterator` whose derived length is the natural
number `n`: starting at cursor `i` with `i + k = n`, it emits the remaining
`k` elements and completes. -/
theorem loopRecursive_arrIt {α : Type} [Inhabited α] (a : Nat → α) (n : Nat) (k : Nat) :
    ∀ (i fuel : Nat), i + k = n → k + 1 ≤ fuel →
      loopRecursive fuel (AnyIterator.arrIt a (JSNum.fin (n : ℚ)) i) =
        (List.ofFn fun j : Fin k => Signal.onNext (a (i + j))) ++ [Signal.onCompleted] := by
  induction k with
  | zero =>
    intro i fuel hi hf
    obtain ⟨f, rfl⟩ : ∃ f, fuel = f + 1 := ⟨fuel - 1, by omega⟩
    have hi' : i = n := by omega
    subst hi'
    simp [loopRecursive, AnyIterator.next, JSNum.lt]
  | succ k ih =>
    intro i fuel hi hf
    obtain ⟨f, rfl⟩ : ∃ f, fuel = f + 1 := ⟨fuel - 1, by omega⟩
    have hlt : (JSNum.fin (i : ℚ)).lt (JSNum.fin (n : ℚ)) = true := by
      simp only [JSNum.lt, decide_eq_true_eq]
      exact_mod_cast (by omega : i < n)
    simp only [loopRecursive, AnyIterator.next, hlt, if_true]
    rw [ih (i + 1) f (by omega) (by omega)]
    rw [List.ofFn_succ]
    simp only [Fin.val_zero, Nat.add_zero, Fin.val_succ, List.cons_append]
    have harg : (fun j : Fin k => Signal.onNext (α := α) (a (i + 1 + j))) =
        (fun j : Fin k => Signal.onNext (a (i + (j + 1)))) := by
      funext j
      have hj : i + 1 + (j : Nat) = i + ((j : Nat) + 1) := by omega
      rw [hj]
    rw [harg]

/-- Emission loop over a `StringIterator`: starting at cursor `i` with
`i + k = s.length`, it emits the remaining characters and completes. -/
theorem loopRecursive_strIt {α : Type} [Inhabited α] (s : List α) (k : Nat) :
    ∀ (i fuel : Nat), i + k = s.length → k + 1 ≤ fuel →
      loopRecursive fuel (AnyIterator.strIt s s.length i) =
        ((s.drop i).map Signal.onNext) ++ [Signal.onCompleted] := by
  induction k with
  | zero =>
    intro i fuel hi hf
    obtain ⟨f, rfl⟩ : ∃ f, fuel = f + 1 := ⟨fuel - 1, by omega⟩
    have hi' : i = s.length := by omega
    subst hi'
    simp [loopRecursive, AnyIterator.next, List.drop_length]
  | succ k ih =>
    intro i fuel hi hf
    obtain ⟨f, rfl⟩ : ∃ f, fuel = f + 1 := ⟨fuel - 1, by omega⟩
    have hilt : i < s.length := by omega
    have hget : s.getD i default = s[i] := List.getD_eq_getElem s default hilt
    have hdrop : s.drop i = s[i] :: s.drop (i + 1) := List.drop_eq_getElem_cons hilt
    simp only [loopRecursive, AnyIterator.next, if_pos hilt, hget]
    rw [ih (i + 1) f (by omega) (by omega), hdrop]
    simp only [List.map_cons, List.cons_append]

/-- C1: for every non-null array-like source `A` with elements `A[0..n-1]`,
subscribing to `from(A)` delivers `onNext(A[0]), ..., onNext(A[n-1])` in index
order, followed by exactly one `onCompleted`, and never calls `onError`
(the trace is exactly the `n` `onNext` signals and a final `onCompleted`). -/
theorem from_arrayLike_trace {α τ : Type} [Inhabited α] (a : Nat → α) (n : Nat)
    (hn : (n : ℚ) ≤ maxSafeInteger) (fuel : Nat) (hf : n + 1 ≤ fuel) (t : τ)
    (sch : Option SchedulerRef) :
    fromTrace fuel (some (arraySource a (JSNum.fin (n : ℚ)))) t sch =
      Except.ok ((List.ofFn fun j : Fin n => Signal.onNext (a j)) ++ [Signal.onCompleted]) := by
  have hlen : toLength (JSNum.fin (n : ℚ)) = JSNum.fin (n : ℚ) := toLength_natCast n hn
  have hloop := loopRecursive_arrIt a n n 0 fuel (by omega) (by omega)
  simp only [fromTrace, observableFrom, FromObservable.subscribeTrace, getIterable,
    arraySource, Option.getD, hlen, Except.map, hloop]
  simp

/-- C1 witness: `from` over the three-element array-like `[0, 1, 2]`. -/
theorem from_arrayLike_trace_witness :
    fromTrace 4 (some (arraySource (fun i => i) (JSNum.fin ((3 : Nat) : ℚ)))) ()
        (none : Option SchedulerRef) =
      Except.ok [Signal.onNext 0, Signal.onNext 1, Signal.onNext 2, Signal.onCompleted] := by
  have h := from_arrayLike_trace (τ := Unit) (fun i => i) 3
    (by norm_num [maxSafeInteger]) 4 (by omega) () none
  simpa [List.ofFn_succ] using h

/-- C2: `from(null)` (and `from(undefined)`) throws `Error('iterable cannot
be null.')` synchronously at the call site — the call returns the error, no
`FromObservable` is constructed, and a subscription attempt can never be
reached (any end-to-end trace is that same call-time error). -/
theorem from_null_throws {α τ : Type} [Inhabited α] (t : τ) (sch : Option SchedulerRef)
    (fuel : Nat) :
    observableFrom (α := α) none t sch =
      Except.error (JsError.error "iterable cannot be null.") ∧
    fromTrace (α := α) fuel none t sch =
      Except.error (JsError.error "iterable cannot be null.") :=
  ⟨rfl, rfl⟩

/-- C3: for a source whose iterator returns `m` values and throws on the
`(m+1)`-st `next()` call, the subscription delivers exactly the `m` `onNext`
signals followed by exactly one `onError` carrying the thrown error — the
trace is exactly that list, so no `onCompleted` and nothing after the error. -/
theorem from_iterator_throw_trace {α τ : Type} [Inhabited α] (p : Nat → Pull α) (m : Nat)
    (v : Nat → α) (e : JsError) (hv : ∀ j, j < m → p j = Pull.value (v j))
    (he : p m = Pull.throws e) (fuel : Nat) (hf : m + 1 ≤ fuel) (t : τ)
    (sch : Option SchedulerRef) :
    fromTrace fuel (some (iteratorSource p)) t sch =
      Except.ok ((List.ofFn fun j : Fin m => Signal.onNext (v j)) ++ [Signal.onError e]) := by
  have hloop := loopRecursive_extIt p v e m 0 fuel
    (fun j hj => by simpa using hv j hj) (by simpa using he) hf
  simp only [fromTrace, observableFrom, FromObservable.subscribeTrace, getIterable,
    iteratorSource, Except.map, hloop]
  simp

/-- C3 witness: an iterator yielding `0, 1` then throwing on the third pull. -/
theorem from_iterator_throw_trace_witness :
    fromTrace 3 (some (iteratorSource pullsEx)) () (none : Option SchedulerRef) =
      Except.ok [Signal.onNext 0, Signal.onNext 1, Signal.onError (JsError.error "boom")] := by
  have h := from_iterator_throw_trace (τ := Unit) pullsEx 2 (fun j => j)
    (JsError.error "boom") (by decide) (by decide) 3 (by omega) () none
  simpa [List.ofFn_succ] using h

/-- C4: `getIterable` resolves a source in this fixed order: an exposed
`$iterator$` capability is used directly; otherwise a string gets the
per-character iterator; otherwise a defined `length` property makes it an
array-like iterated over indices `0..toLength-1`; otherwise it throws
`TypeError('Object is not iterable')`. -/
theorem getIterable_resolution_order {α : Type} (o : JSSource α) :
    (∀ p, o.iteratorCap = some p → getIterable o = Except.ok (AnyIterator.extIt p 0)) ∧
    (o.iteratorCap = none → ∀ s, o.stringVal = some s →
      getIterable o = Except.ok (AnyIterator.strIt s s.length 0)) ∧
    (o.iteratorCap = none → o.stringVal = none → ∀ l, o.length = some l →
      getIterable o = Except.ok (AnyIterator.arrIt o.elem (toLength l) 0)) ∧
    (o.iteratorCap = none → o.stringVal = none → o.length = none →
      getIterable o = Except.error (JsError.typeError "Object is not iterable")) := by
  refine ⟨?_, ?_, ?_, ?_⟩ <;> intros <;> simp_all [getIterable]

/-- C4 witness: a source with no iterator capability, no string value and no
`length` is rejected as not iterable. -/
theorem getIterable_resolution_order_witness :
    getIterable plainSource = Except.error (JsError.typeError "Object is not iterable") :=
  (getIterable_resolution_order plainSource).2.2.2 rfl rfl rfl

/-- C5 counterexample: for an array-like whose `length` is `Infinity`,
`toLength` returns `Infinity` unchanged instead of clamping it to
`maxSafeInteger = 2^53 - 1`, contradicting the claim that every length —
including non-finite ones — is clamped from above. -/
theorem toLength_posInf_not_clamped :
    toLength JSNum.posInf = JSNum.posInf ∧
    toLength JSNum.posInf ≠ JSNum.fin maxSafeInteger :=
  ⟨rfl, by decide⟩

/-- C5 (amended): the element count derived from an array-like's `length` is
0 for `NaN`, 0 for negative or zero (finite) lengths, the integer truncation
clamped from above to `2^53 - 1` for all other finite lengths; a non-finite
length is returned unchanged (`Infinity` and `-Infinity` are not clamped). -/
theorem toLength_characterization (q : ℚ) :
    toLength (JSNum.fin q) =
      (if q < 1 then JSNum.fin 0 else JSNum.fin ((min ⌊q⌋ (2 ^ 53 - 1) : ℤ) : ℚ)) ∧
    toLength JSNum.nan = JSNum.fin 0 ∧
    toLength JSNum.posInf = JSNum.posInf ∧
    toLength JSNum.negInf = JSNum.negInf :=
  ⟨toLength_fin_eq q, rfl, rfl, rfl⟩

/-- C6: under the spec's `publish().refCount()` sharing policy, two observers
subscribing to `fromEventPattern(add, remove)` cause exactly one `add` call;
after the first of the two unsubscribes `remove` has not been called, after
the second it has been called exactly once; and a subscriber arriving after
the count dropped to zero re-establishes the registration (a second `add`). -/
theorem fromEventPattern_refCount_sharing {R : Type} (add : (List Nat → Signal Nat) → R) :
    (runRefCount (⟨add, true⟩ : EventPatternObservable Nat R)
        [RCEvent.sub, RCEvent.sub]).addCalls = 1 ∧
    (runRefCount (⟨add, true⟩ : EventPatternObservable Nat R)
        [RCEvent.sub, RCEvent.sub, RCEvent.unsub]).delCalls = 0 ∧
    (runRefCount (⟨add, true⟩ : EventPatternObservable Nat R)
        [RCEvent.sub, RCEvent.sub, RCEvent.unsub, RCEvent.unsub]).delCalls = 1 ∧
    (runRefCount (⟨add, true⟩ : EventPatternObservable Nat R)
        [RCEvent.sub, RCEvent.sub, RCEvent.unsub, RCEvent.unsub]).addCalls = 1 ∧
    (runRefCount (⟨add, true⟩ : EventPatternObservable Nat R)
        [RCEvent.sub, RCEvent.unsub, RCEvent.sub]).addCalls = 2 :=
  ⟨rfl, rfl, rfl, rfl, rfl⟩

/-- C7: for every `EventPatternDisposable` produced by the event-pattern
constructor's `subscribeCore`, the first `dispose()` invokes `removeHandler`
exactly once with the forwarding handler and `addHandler`'s return value
(when `removeHandler` is callable, otherwise not at all) and sets
`isDisposed`; a second `dispose()` changes nothing and runs no teardown. -/
theorem dispose_idempotent {β R : Type} [Inhabited β] (src : EventPatternObservable β R) :
    (src.subscribeCore.disposable.dispose.2 =
      if src._delCallable then
        [(src.subscribeCore.disposable._fn, src.subscribeCore.disposable._ret)]
      else []) ∧
    src.subscribeCore.disposable.dispose.1.isDisposed = true ∧
    src.subscribeCore.disposable.dispose.1.dispose =
      (src.subscribeCore.disposable.dispose.1, []) :=
  ⟨rfl, rfl, rfl⟩

/-- C8: each `subscribeCore` of the event-pattern observable builds exactly
one forwarding handler and passes exactly it to `addHandler`, retains
`addHandler`'s return value in the disposable, and the handler maps any
invocation by the event source to `onNext` of the first argument (further
arguments dropped; no argument yields `undefined`). -/
theorem subscribeCore_handler_spec {β R : Type} [Inhabited β]
    (src : EventPatternObservable β R) :
    src.subscribeCore.addCalls = [createHandler β] ∧
    src.subscribeCore.disposable._fn = createHandler β ∧
    src.subscribeCore.disposable._ret = src._add (createHandler β) ∧
    (∀ (a : β) (rest : List β), createHandler β (a :: rest) = Signal.onNext a) ∧
    createHandler β [] = Signal.onNext default :=
  ⟨rfl, rfl, rfl, fun _ _ => rfl, rfl⟩

/-- C10: `observableFrom` accepts `thisArg` but never reads it — for any two
`thisArg` values (even of different types) the constructed observable and
every subscription trace are identical. -/
theorem observableFrom_ignores_thisArg {α τ₁ τ₂ : Type} [Inhabited α]
    (iterable : Option (JSSource α)) (t1 : τ₁) (t2 : τ₂) (sch : Option SchedulerRef) :
    observableFrom iterable t1 sch = observableFrom iterable t2 sch ∧
    ∀ fuel, fromTrace fuel iterable t1 sch = fromTrace fuel iterable t2 sch :=
  ⟨rfl, fun _ => rfl⟩

/-- C9: for every string `s` (its characters given as values), subscribing to
`from(s)` delivers `onNext` of each character in index order followed by
exactly one `onCompleted`. -/
theorem from_string_trace {α τ : Type} [Inhabited α] (s : List α) (fuel : Nat)
    (hf : s.length + 1 ≤ fuel) (t : τ) (sch : Option SchedulerRef) :
    fromTrace fuel (some (stringSource s)) t sch =
      Except.ok ((s.map Signal.onNext) ++ [Signal.onCompleted]) := by
  have hloop := loopRecursive_strIt s s.length 0 fuel (by omega) (by omega)
  simp only [fromTrace, observableFrom, FromObservable.subscribeTrace, getIterable,
    stringSource, Except.map, hloop]
  simp

/-- C9 witness: `from("ab")` yields `onNext('a')`, `onNext('b')`,
`onCompleted()`. -/
theorem from_string_trace_witness :
    fromTrace 3 (some (stringSource ['a', 'b'])) () (none : Option SchedulerRef) =
      Except.ok [Signal.onNext 'a', Signal.onNext 'b', Signal.onCompleted] := by
  have h := from_string_trace (τ := Unit) ['a', 'b'] 3 (by decide) () none
  simpa using h
